import Mathlib

/-!
Verification of the `gopensky` client library (`gopensky.go`).

The development shallowly embeds the two components of the library:

* the state decoder (`deserializeStates`, `deserializeState`,
  `deserializeString`, `deserializeFloat64`, `deserializeIntSlice` and the
  response-decoding portion of `Get`), modelled over a generic JSON value
  tree.  Go's dynamic type assertions `x.(T)` panic when the assertion
  fails; every decoding function is therefore embedded as an
  `Option`-valued function where `none` stands for a fault (panic) or a
  decode error, and `some` for the successfully produced value.  Go
  `float64` values arising from JSON numbers are modelled as exact
  rationals (`ℚ`); `encoding/json` decodes every JSON number to `float64`,
  every JSON array to `[]interface{}` and every JSON object to
  `map[string]interface{}`, which the embedding mirrors.

* the request encoder (`serializeQueryParams`, `formatDegrees` and the
  query construction in `Get`), together with a model of the pieces of
  `net/url` it relies on (`url.Values.Set/Add/Encode`, `url.QueryEscape`)
  and, for the round-trip property, a model of `url.ParseQuery`.
-/

namespace Gopensky

/-- `Option` sequencing: the value of `e2` in Go code of the shape
`v1, ok := e1; if !ok panic; e2` — used to chain the decoder's fallible
steps, where `none` models a panic or error aborting the computation. -/
def obind {A B : Type} (x : Option A) (f : A → Option B) : Option B :=
  match x with
  | none => none
  | some a => f a

/-! ## JSON value trees

The result of Go's `encoding/json` decoding into `interface{}`:
`nil`, `bool`, `float64` (every JSON number), `string`, `[]interface{}`
(every JSON array) and `map[string]interface{}` (every JSON object).
Numbers are modelled as exact rationals. -/

inductive JsonValue where
  | null
  | bool (b : Bool)
  | num (q : ℚ)
  | str (s : String)
  | arr (xs : List JsonValue)
  | obj (kvs : List (String × JsonValue))

/-- Go's `int(f)` conversion on a `float64`: truncation toward zero,
on the exact rational model of the float. -/
def ratTrunc (q : ℚ) : Int :=
  if q.num < 0 then -((q.num.natAbs / q.den : Nat) : Int)
  else ((q.num.natAbs / q.den : Nat) : Int)

/-- The type assertion `x.(string)`: `some` on a string, panic (`none`)
otherwise. -/
def asString : JsonValue → Option String
  | .str s => some s
  | _ => none

/-- The type assertion `x.(float64)`: JSON numbers decode to `float64`. -/
def asFloat : JsonValue → Option ℚ
  | .num q => some q
  | _ => none

/-- The type assertion `x.(bool)`. -/
def asBool : JsonValue → Option Bool
  | .bool b => some b
  | _ => none

/-- The type assertion `x.([]interface{})`: JSON arrays decode to
`[]interface{}`; `nil` (JSON null or an absent map key) fails the
assertion and panics. -/
def asArr : JsonValue → Option (List JsonValue)
  | .arr xs => some xs
  | _ => none

/-! ## The data model (`gopensky.go`, lines 18-86) -/

/-- A geographic bounding box; the four bounds are `float64` degrees,
modelled as exact rationals. -/
structure Bbox where
  Lamin : ℚ
  Lomin : ℚ
  Lamax : ℚ
  Lomax : ℚ

/-- The request: a Unix timestamp (zero meaning absent), transponder
addresses, and an optional bounding box (`*Bbox`, nil meaning absent). -/
structure Request where
  Time : Int
  Icao24 : List String
  Bbox : Option Bbox

/-- One decoded state vector (17 positional fields). -/
structure State where
  Icao24 : String
  Callsign : String
  OriginCountry : String
  TimePosition : Int
  LastContact : Int
  Longitude : ℚ
  Latitude : ℚ
  BaroAltitude : ℚ
  OnGround : Bool
  Velocity : ℚ
  TrueTrack : ℚ
  VerticalRate : ℚ
  Sensors : List Int
  GeoAltitude : ℚ
  Squawk : String
  Spi : Bool
  PositionSource : Int

/-- The decoded response: timestamp plus state vectors. -/
structure Response where
  Time : Int
  States : List State

/-! ## The state decoder (`gopensky.go`, lines 152-205 and 110-119) -/

/-- `deserializeString` (lines 191-197): `nil` becomes the empty string,
otherwise the value is asserted to be a string (panicking if not). -/
def deserializeString : JsonValue → Option String
  | .null => some ""
  | v => asString v

/-- `deserializeFloat64` (lines 199-205): `nil` becomes `0`, otherwise the
value is asserted to be a `float64` (panicking if not). -/
def deserializeFloat64 : JsonValue → Option ℚ
  | .null => some 0
  | v => asFloat v

/-- `deserializeIntSlice` (lines 183-189): `nil` becomes the empty slice;
otherwise the code asserts `slice.([]int)`.  A value decoded by
`encoding/json` has dynamic type `[]interface{}` for a JSON array — never
`[]int` — so the assertion fails (panics) on every non-nil input reachable
from JSON decoding, JSON arrays included. -/
def deserializeIntSlice : JsonValue → Option (List Int)
  | .null => some []
  | _ => none

/-- `deserializeState` (lines 160-181): assert the raw value is an array,
then read positions 0 through 16 in index order, each through its field's
coercion; any out-of-range access or failed assertion panics (`none`). -/
def deserializeState (state : JsonValue) : Option State :=
  obind (asArr state) fun vec =>
  obind (obind vec[0]? asString) fun icao24 =>
  obind (obind vec[1]? deserializeString) fun callsign =>
  obind (obind vec[2]? asString) fun originCountry =>
  obind (obind vec[3]? deserializeFloat64) fun timePosition =>
  obind (obind vec[4]? asFloat) fun lastContact =>
  obind (obind vec[5]? deserializeFloat64) fun longitude =>
  obind (obind vec[6]? deserializeFloat64) fun latitude =>
  obind (obind vec[7]? deserializeFloat64) fun baroAltitude =>
  obind (obind vec[8]? asBool) fun onGround =>
  obind (obind vec[9]? deserializeFloat64) fun velocity =>
  obind (obind vec[10]? deserializeFloat64) fun trueTrack =>
  obind (obind vec[11]? deserializeFloat64) fun verticalRate =>
  obind (obind vec[12]? deserializeIntSlice) fun sensors =>
  obind (obind vec[13]? deserializeFloat64) fun geoAltitude =>
  obind (obind vec[14]? deserializeString) fun squawk =>
  obind (obind vec[15]? asBool) fun spi =>
  obind (obind vec[16]? asFloat) fun positionSource =>
  some (State.mk icao24 callsign originCountry (ratTrunc timePosition)
    (ratTrunc lastContact) longitude latitude baroAltitude onGround
    velocity trueTrack verticalRate sensors geoAltitude squawk spi
    (ratTrunc positionSource))

/-- `deserializeStates` (lines 152-158): decode each raw state in order,
collecting into a list; a panic in any element aborts the whole run. -/
def deserializeStates : List JsonValue → Option (List State)
  | [] => some []
  | x :: rest =>
    obind (deserializeState x) fun s =>
    obind (deserializeStates rest) fun ss =>
    some (s :: ss)

/-- Indexing a `map[string]interface{}`: an absent key yields the nil
interface value, indistinguishable from a stored JSON null. -/
def mapGet (kvs : List (String × JsonValue)) (k : String) : JsonValue :=
  (List.lookup k kvs).getD .null

/-- The response-decoding portion of `Get` (lines 110-119): the body must
be a JSON object (else `json.Decode` errors); then
`raw["states"].([]interface{})` is asserted and deserialized, and
`raw["time"].(float64)` is asserted and truncated to `int`.  The `states`
assertion is evaluated first (line 114), the `time` assertion inside the
struct literal afterwards (line 117). -/
def decodeResponseBody (body : JsonValue) : Option Response :=
  match body with
  | .obj kvs =>
    obind (obind (asArr (mapGet kvs "states")) deserializeStates) fun states =>
    obind (asFloat (mapGet kvs "time")) fun t =>
    some (Response.mk (ratTrunc t) states)
  | _ => none

/-! ## Decimal rendering (`strconv.Itoa`, `fmt.Sprintf("%.4f", ·)`)

`natDec` renders a natural number in decimal; the recursion is driven by
a fuel argument (`n + 1` steps always suffice, since the argument shrinks
by a factor of ten each step) so that the definition is structural. -/

/-- The decimal digit character for `d < 10` (`'0' + d` in Go). -/
def digitChar : Nat → Char
  | 0 => '0'
  | 1 => '1'
  | 2 => '2'
  | 3 => '3'
  | 4 => '4'
  | 5 => '5'
  | 6 => '6'
  | 7 => '7'
  | 8 => '8'
  | 9 => '9'
  | _ => '0'

/-- Digits of `n` in order, most significant first (`[]` for `n = 0`);
`fuel` bounds the recursion depth. -/
def natDigits : Nat → Nat → List Char
  | 0, _ => []
  | fuel + 1, n => if n = 0 then [] else natDigits fuel (n / 10) ++ [digitChar (n % 10)]

/-- Decimal rendering of a natural number. -/
def natDec (n : Nat) : String :=
  if n = 0 then "0" else ⟨natDigits (n + 1) n⟩

/-- `strconv.Itoa`: decimal rendering of an `int`, with a leading `-` for
negative values. -/
def itoa (i : Int) : String :=
  (if i < 0 then "-" else "") ++ natDec i.natAbs

/-- Round the fraction `n / d` (`d ≠ 0` intended) to the nearest natural
number, ties to even — the rounding `strconv`'s fixed-precision `'f'`
formatting applies to the exact value of the `float64`. -/
def roundHalfEvenFrac (n d : Nat) : Nat :=
  let whole := n / d
  if 2 * (n % d) < d then whole
  else if d < 2 * (n % d) then whole + 1
  else if whole % 2 = 0 then whole else whole + 1

/-- Exactly four decimal digits for `m < 10000` (the fractional part of a
`%.4f` rendering). -/
def frac4 (m : Nat) : String :=
  ⟨[digitChar (m / 1000 % 10), digitChar (m / 100 % 10),
    digitChar (m / 10 % 10), digitChar (m % 10)]⟩

/-- `formatDegrees` (lines 127-129): `fmt.Sprintf("%.4f", degrees)` on the
exact rational value of a finite `float64`: the sign of the input,
followed by the value rounded to four decimal places, always rendered
with exactly four digits after the point. -/
def formatDegrees (degrees : ℚ) : String :=
  let n := roundHalfEvenFrac (degrees.num.natAbs * 10000) degrees.den
  (if degrees.num < 0 then "-" else "") ++ natDec (n / 10000) ++ "." ++ frac4 (n % 10000)

/-! ## Query escaping (`url.QueryEscape`) -/

/-- The bytes of the UTF-8 encoding of a character (Go strings are UTF-8
byte sequences). -/
def utf8Bytes (c : Char) : List Nat :=
  let n := c.toNat
  if n < 0x80 then [n]
  else if n < 0x800 then
    [0xC0 + n / 0x40, 0x80 + n % 0x40]
  else if n < 0x10000 then
    [0xE0 + n / 0x1000, 0x80 + n / 0x40 % 0x40, 0x80 + n % 0x40]
  else
    [0xF0 + n / 0x40000, 0x80 + n / 0x1000 % 0x40, 0x80 + n / 0x40 % 0x40,
     0x80 + n % 0x40]

/-- Uppercase hexadecimal digit for `d < 16` (`url` escapes with
`"0123456789ABCDEF"`). -/
def hexDigitChar : Nat → Char
  | 10 => 'A'
  | 11 => 'B'
  | 12 => 'C'
  | 13 => 'D'
  | 14 => 'E'
  | 15 => 'F'
  | d => digitChar d

/-- A byte rendered as a `%XX` escape. -/
def percentByte (b : Nat) : List Char :=
  ['%', hexDigitChar (b / 16 % 16), hexDigitChar (b % 16)]

/-- The bytes `url.QueryEscape` leaves unescaped: ASCII letters, digits,
and `-`, `_`, `.`, `~`. -/
def isSafeChar (c : Char) : Bool :=
  c.isAlphanum || c == '-' || c == '_' || c == '.' || c == '~'

/-- One character of `url.QueryEscape`: safe characters pass through,
space becomes `+`, everything else is percent-encoded byte by byte. -/
def escapeChar (c : Char) : List Char :=
  if isSafeChar c then [c]
  else if c == ' ' then ['+']
  else (utf8Bytes c).flatMap percentByte

/-- `url.QueryEscape`. -/
def queryEscape (s : String) : String :=
  ⟨s.data.flatMap escapeChar⟩

/-! ## `url.Values` (`Set`, `Add`, `Encode`)

`url.Values` is a `map[string][]string`; it is modelled as an association
list with at most one entry per key.  `Encode` walks the keys in sorted
order and emits `key=escapedValue` pairs joined by `&`. -/

/-- The values map: key to list of values, one entry per key. -/
abbrev Values : Type := List (String × List String)

/-- `url.Values.Set`: replace the key's values with the single value. -/
def vset (vs : Values) (k s : String) : Values :=
  match vs with
  | [] => [(k, [s])]
  | kv :: rest => if k == kv.1 then (k, [s]) :: rest else kv :: vset rest k s

/-- `url.Values.Add`: append the value to the key's values. -/
def vadd (vs : Values) (k s : String) : Values :=
  match vs with
  | [] => [(k, [s])]
  | kv :: rest => if k == kv.1 then (kv.1, kv.2 ++ [s]) :: rest else kv :: vadd rest k s

/-- The keys of a values map. -/
def valuesKeys (vs : Values) : List String :=
  vs.map Prod.fst

/-- Looking a key up in a values map (`v[k]`, the nil slice when absent). -/
def valuesGet (vs : Values) (k : String) : List String :=
  (List.lookup k vs).getD []

/-- Byte-wise lexicographic comparison of strings, as `sort.Strings`
orders them (UTF-8 byte order coincides with code-point order). -/
def charListLt : List Char → List Char → Bool
  | [], [] => false
  | [], _ :: _ => true
  | _ :: _, [] => false
  | a :: as, b :: bs =>
    if a.toNat < b.toNat then true
    else if b.toNat < a.toNat then false
    else charListLt as bs

/-- `a` strictly before `b` in `sort.Strings` order. -/
def strLt (a b : String) : Bool :=
  charListLt a.data b.data

/-- Insert a key into an already sorted key list. -/
def insortKey (k : String) : List String → List String
  | [] => [k]
  | x :: xs => if strLt x k then x :: insortKey k xs else k :: x :: xs

/-- `sort.Strings` on the key list, as insertion sort. -/
def sortKeys : List String → List String
  | [] => []
  | x :: xs => insortKey x (sortKeys xs)

/-- The `key, escapedValue` pairs `url.Values.Encode` emits: keys in
sorted order, each key's values in insertion order, values
query-escaped. -/
def encodeParams (vs : Values) : List (String × String) :=
  (sortKeys (valuesKeys vs)).flatMap fun k =>
    (valuesGet vs k).map fun val => (k, queryEscape val)

/-- `strings.Join`-style concatenation with a separator. -/
def joinParts (sep : String) : List String → String
  | [] => ""
  | [x] => x
  | x :: y :: rest => x ++ sep ++ joinParts sep (y :: rest)

/-- `url.Values.Encode`: the emitted pairs written `key=value` and joined
with `&`. -/
def valuesEncode (vs : Values) : String :=
  joinParts "&" ((encodeParams vs).map fun p => p.1 ++ "=" ++ p.2)

/-! ## The request encoder (`gopensky.go`, lines 127-150 and 96-100) -/

/-- The `url.Values` built by `serializeQueryParams` (lines 131-148):
`time` when nonzero, one `icao24` per address, then the four bounds when
a bounding box is present. -/
def reqValues (req : Request) : Values :=
  let v : Values := []
  let v := if req.Time ≠ 0 then vset v "time" (itoa req.Time) else v
  let v := req.Icao24.foldl (fun acc s => vadd acc "icao24" s) v
  match req.Bbox with
  | some b =>
    vset (vset (vset (vset v "lamin" (formatDegrees b.Lamin))
      "lomin" (formatDegrees b.Lomin)) "lamax" (formatDegrees b.Lamax))
      "lomax" (formatDegrees b.Lomax)
  | none => v

/-- The `key, escapedValue` pairs of the encoded query string of a
request. -/
def queryParams (req : Request) : List (String × String) :=
  encodeParams (reqValues req)

/-- `serializeQueryParams` (lines 131-150): build the values and encode
them. -/
def serializeQueryParams (req : Request) : String :=
  joinParts "&" ((queryParams req).map fun p => p.1 ++ "=" ++ p.2)

/-- The query-string portion of `Get` (lines 96-100): the parsed endpoint
URL has an empty `RawQuery`, overwritten with the serialized parameters
only when the request is non-nil. -/
def getRawQuery (req : Option Request) : String :=
  match req with
  | some r => serializeQueryParams r
  | none => ""

/-! ## Query parsing (`url.ParseQuery`)

A character-level model of `url.ParseQuery`, exact on ASCII input (a
multi-byte percent-escape sequence would need byte-level UTF-8 assembly;
none occurs in the inputs considered here): split the query on `&`,
skip empty segments, cut each segment at the first `=`, and unescape
key and value. -/

/-- Split a character list on a separator character. -/
def splitOnChar (c : Char) : List Char → List (List Char)
  | [] => [[]]
  | x :: xs =>
    match splitOnChar c xs with
    | [] => [[]]
    | cur :: rest => if x == c then [] :: cur :: rest else (x :: cur) :: rest

/-- The value of a hexadecimal digit character (0 for non-hex input). -/
def hexNibble (c : Char) : Nat :=
  if '0' ≤ c ∧ c ≤ '9' then c.toNat - '0'.toNat
  else if 'a' ≤ c ∧ c ≤ 'f' then c.toNat - 'a'.toNat + 10
  else if 'A' ≤ c ∧ c ≤ 'F' then c.toNat - 'A'.toNat + 10
  else 0

/-- `url.QueryUnescape` on ASCII text: `+` becomes space, `%XX` becomes
the escaped byte, everything else passes through. -/
def queryUnescape : List Char → List Char
  | [] => []
  | '+' :: rest => ' ' :: queryUnescape rest
  | '%' :: a :: b :: rest => Char.ofNat (16 * hexNibble a + hexNibble b) :: queryUnescape rest
  | c :: rest => c :: queryUnescape rest

/-- `url.ParseQuery`, as the ordered list of key-value pairs it collects. -/
def parseQuery (s : String) : List (String × String) :=
  if s.data.isEmpty then []
  else
    ((splitOnChar '&' s.data).filter (fun seg => !seg.isEmpty)).map fun seg =>
      (⟨queryUnescape (seg.takeWhile (· != '='))⟩,
       ⟨queryUnescape ((seg.dropWhile (· != '=')).drop 1)⟩)

/-! ## Concrete test fixtures -/

/-- The specification's example state vector:
`["abc123", null, "Germany", 1.0, 2, 3.5, 4.5, 5.5, false, 6.5, 7.5, 8.5,
null, 9.5, null, false, 0]`. -/
def sampleVec : List JsonValue :=
  [.str "abc123", .null, .str "Germany", .num 1, .num 2, .num (mkRat 7 2),
   .num (mkRat 9 2), .num (mkRat 11 2), .bool false, .num (mkRat 13 2),
   .num (mkRat 15 2), .num (mkRat 17 2), .null, .num (mkRat 19 2), .null,
   .bool false, .num 0]

/-- The decoded form of `sampleVec`: nulls at the nullable positions
map to zero values, every other field matches its positional value. -/
def sampleState : State where
  Icao24 := "abc123"
  Callsign := ""
  OriginCountry := "Germany"
  TimePosition := 1
  LastContact := 2
  Longitude := mkRat 7 2
  Latitude := mkRat 9 2
  BaroAltitude := mkRat 11 2
  OnGround := false
  Velocity := mkRat 13 2
  TrueTrack := mkRat 15 2
  VerticalRate := mkRat 17 2
  Sensors := []
  GeoAltitude := mkRat 19 2
  Squawk := ""
  Spi := false
  PositionSource := 0

/-- The specification's round-trip request:
`Icao24=["abc9f3","3c6444"]`, `Bbox={1,2,3,4}`, `Time=1458564121`. -/
def rtReq : Request :=
  ⟨1458564121, ["abc9f3", "3c6444"], some ⟨1, 2, 3, 4⟩⟩

/-! ## Helper lemmas: the decoder -/

theorem obind_eq_some {A B : Type} {x : Option A} {f : A → Option B} {b : B} :
    obind x f = some b ↔ ∃ a, x = some a ∧ f a = some b := by
  cases x <;> simp [obind]

theorem obind_some {A B : Type} (a : A) (f : A → Option B) :
    obind (some a) f = f a := rfl

theorem asString_ne_null {v : JsonValue} {r : String}
    (h : asString v = some r) : v ≠ .null := by
  rintro rfl; simp [asString] at h

theorem asFloat_ne_null {v : JsonValue} {r : ℚ}
    (h : asFloat v = some r) : v ≠ .null := by
  rintro rfl; simp [asFloat] at h

theorem asBool_ne_null {v : JsonValue} {r : Bool}
    (h : asBool v = some r) : v ≠ .null := by
  rintro rfl; simp [asBool] at h

/-- Inversion for a successful `deserializeState` run: the vector has at
least 17 elements, and none of the positions read through a bare type
assertion (0, 2, 4, 8, 15, 16) held a JSON null. -/
theorem deserializeState_some_inv {vec : List JsonValue} {s : State}
    (h : deserializeState (.arr vec) = some s) :
    17 ≤ vec.length ∧
      vec[0]? ≠ some .null ∧ vec[2]? ≠ some .null ∧ vec[4]? ≠ some .null ∧
      vec[8]? ≠ some .null ∧ vec[15]? ≠ some .null ∧ vec[16]? ≠ some .null := by
  rw [deserializeState] at h
  simp only [asArr, obind_some, obind_eq_some] at h
  obtain ⟨x0, ⟨v0, hv0, ha0⟩, h⟩ := h
  obtain ⟨x1, ⟨v1, hv1, ha1⟩, h⟩ := h
  obtain ⟨x2, ⟨v2, hv2, ha2⟩, h⟩ := h
  obtain ⟨x3, ⟨v3, hv3, ha3⟩, h⟩ := h
  obtain ⟨x4, ⟨v4, hv4, ha4⟩, h⟩ := h
  obtain ⟨x5, ⟨v5, hv5, ha5⟩, h⟩ := h
  obtain ⟨x6, ⟨v6, hv6, ha6⟩, h⟩ := h
  obtain ⟨x7, ⟨v7, hv7, ha7⟩, h⟩ := h
  obtain ⟨x8, ⟨v8, hv8, ha8⟩, h⟩ := h
  obtain ⟨x9, ⟨v9, hv9, ha9⟩, h⟩ := h
  obtain ⟨x10, ⟨v10, hv10, ha10⟩, h⟩ := h
  obtain ⟨x11, ⟨v11, hv11, ha11⟩, h⟩ := h
  obtain ⟨x12, ⟨v12, hv12, ha12⟩, h⟩ := h
  obtain ⟨x13, ⟨v13, hv13, ha13⟩, h⟩ := h
  obtain ⟨x14, ⟨v14, hv14, ha14⟩, h⟩ := h
  obtain ⟨x15, ⟨v15, hv15, ha15⟩, h⟩ := h
  obtain ⟨x16, ⟨v16, hv16, ha16⟩, h⟩ := h
  have hlen : 16 < vec.length := by
    rcases List.getElem?_eq_some.mp hv16 with ⟨hl, -⟩
    exact hl
  refine ⟨by omega, ?_, ?_, ?_, ?_, ?_, ?_⟩
  · intro hnull; rw [hv0] at hnull
    exact asString_ne_null ha0 (Option.some.injEq _ _ ▸ hnull)
  · intro hnull; rw [hv2] at hnull
    exact asString_ne_null ha2 (Option.some.injEq _ _ ▸ hnull)
  · intro hnull; rw [hv4] at hnull
    exact asFloat_ne_null ha4 (Option.some.injEq _ _ ▸ hnull)
  · intro hnull; rw [hv8] at hnull
    exact asBool_ne_null ha8 (Option.some.injEq _ _ ▸ hnull)
  · intro hnull; rw [hv15] at hnull
    exact asBool_ne_null ha15 (Option.some.injEq _ _ ▸ hnull)
  · intro hnull; rw [hv16] at hnull
    exact asFloat_ne_null ha16 (Option.some.injEq _ _ ▸ hnull)

/-! ## Helper lemmas: the encoder

The shape of the `url.Values` built by `serializeQueryParams`, and the
behaviour of `Encode` on it. -/

theorem vset_not_mem (vs : Values) (k s : String) (h : k ∉ valuesKeys vs) :
    vset vs k s = vs ++ [(k, [s])] := by
  induction vs with
  | nil => rfl
  | cons kv rest ih =>
    simp only [valuesKeys, List.map_cons, List.mem_cons, not_or] at h
    simp [vset, ih (by simp [valuesKeys, h.2]), beq_false_of_ne h.1]

theorem vadd_not_mem (vs : Values) (k s : String) (h : k ∉ valuesKeys vs) :
    vadd vs k s = vs ++ [(k, [s])] := by
  induction vs with
  | nil => rfl
  | cons kv rest ih =>
    simp only [valuesKeys, List.map_cons, List.mem_cons, not_or] at h
    simp [vadd, ih (by simp [valuesKeys, h.2]), beq_false_of_ne h.1]

theorem vadd_last (vs : Values) (k : String) (l : List String) (s : String)
    (h : k ∉ valuesKeys vs) :
    vadd (vs ++ [(k, l)]) k s = vs ++ [(k, l ++ [s])] := by
  induction vs with
  | nil => simp [vadd]
  | cons kv rest ih =>
    simp only [valuesKeys, List.map_cons, List.mem_cons, not_or] at h
    simp [vadd, ih (by simp [valuesKeys, h.2]), beq_false_of_ne h.1]

theorem foldl_vadd (xs : List String) (vs : Values) (k : String) (l : List String)
    (h : k ∉ valuesKeys vs) :
    xs.foldl (fun a s => vadd a k s) (vs ++ [(k, l)]) = vs ++ [(k, l ++ xs)] := by
  induction xs generalizing l with
  | nil => simp
  | cons x xs ih =>
    simp only [List.foldl_cons, vadd_last vs k l x h, ih (l ++ [x])]
    simp

theorem foldl_vadd_start (xs : List String) (vs : Values) (k : String)
    (h : k ∉ valuesKeys vs) :
    xs.foldl (fun a s => vadd a k s) vs =
      vs ++ (if xs = [] then [] else [(k, xs)]) := by
  cases xs with
  | nil => simp
  | cons x xs =>
    simp only [List.foldl_cons, vadd_not_mem vs k x h]
    rw [foldl_vadd xs vs k [x] h]
    simp

theorem not_mem_keys_append (v w : Values) (k : String)
    (h1 : k ∉ valuesKeys v) (h2 : k ∉ valuesKeys w) : k ∉ valuesKeys (v ++ w) := by
  rw [valuesKeys, List.map_append, List.mem_append]
  rw [valuesKeys] at h1 h2
  tauto

theorem vset_chain (v : Values) (A B C D : String)
    (h1 : "lamin" ∉ valuesKeys v) (h2 : "lomin" ∉ valuesKeys v)
    (h3 : "lamax" ∉ valuesKeys v) (h4 : "lomax" ∉ valuesKeys v) :
    vset (vset (vset (vset v "lamin" A) "lomin" B) "lamax" C) "lomax" D =
      v ++ [("lamin", [A]), ("lomin", [B]), ("lamax", [C]), ("lomax", [D])] := by
  rw [vset_not_mem _ _ _ h1]
  rw [vset_not_mem _ _ _ (not_mem_keys_append _ _ _ h2 (by simp [valuesKeys]))]
  rw [List.append_assoc]
  rw [vset_not_mem _ _ _ (not_mem_keys_append _ _ _ h3 (by simp [valuesKeys]))]
  rw [List.append_assoc]
  rw [vset_not_mem _ _ _ (not_mem_keys_append _ _ _ h4 (by simp [valuesKeys]))]
  simp

/-- The values built by `serializeQueryParams`, as three explicit blocks
in insertion order: the optional `time` entry, the `icao24` entry when any
addresses are present, and the four bounding-box entries. -/
theorem reqValues_eq (req : Request) :
    reqValues req =
      (if req.Time = 0 then [] else [("time", [itoa req.Time])]) ++
      (if req.Icao24 = [] then [] else [("icao24", req.Icao24)]) ++
      (match req.Bbox with
       | none => []
       | some b =>
         [("lamin", [formatDegrees b.Lamin]), ("lomin", [formatDegrees b.Lomin]),
          ("lamax", [formatDegrees b.Lamax]), ("lomax", [formatDegrees b.Lomax])]) := by
  obtain ⟨t, icao, bb⟩ := req
  rw [reqValues]
  dsimp only
  have step1 : (if (t : Int) ≠ 0 then vset ([] : Values) "time" (itoa t) else ([] : Values)) =
      (if t = 0 then ([] : Values) else [("time", [itoa t])]) := by
    rcases eq_or_ne t 0 with rfl | ht
    · simp
    · simp [ht, vset]
  rw [step1]
  have hk1 : "icao24" ∉ valuesKeys (if t = 0 then ([] : Values) else [("time", [itoa t])]) := by
    rcases eq_or_ne t 0 with rfl | ht
    · simp [valuesKeys]
    · simp [ht, valuesKeys]
  rw [foldl_vadd_start icao _ "icao24" hk1]
  have hkeys : ∀ k : String, k ≠ "time" → k ≠ "icao24" →
      k ∉ valuesKeys ((if t = 0 then ([] : Values) else [("time", [itoa t])]) ++
        (if icao = [] then ([] : Values) else [("icao24", icao)])) := by
    intro k hka hkb
    refine not_mem_keys_append _ _ _ ?_ ?_
    · split
      · simp [valuesKeys]
      · simp [valuesKeys, hka]
    · split
      · simp [valuesKeys]
      · simp [valuesKeys, hkb]
  rcases bb with _ | b
  · simp
  · dsimp only
    rw [vset_chain _ _ _ _ _
      (hkeys "lamin" (by decide) (by decide)) (hkeys "lomin" (by decide) (by decide))
      (hkeys "lamax" (by decide) (by decide)) (hkeys "lomax" (by decide) (by decide))]

/-- The encoded parameter list of a request, as `Encode` emits it: the
`icao24` entries (keys sort first), then the four bounds in sorted key
order, then `time`. -/
theorem queryParams_eq (req : Request) :
    queryParams req =
      (req.Icao24.map fun v => ("icao24", queryEscape v)) ++
      (match req.Bbox with
       | none => []
       | some b =>
         [("lamax", queryEscape (formatDegrees b.Lamax)),
          ("lamin", queryEscape (formatDegrees b.Lamin)),
          ("lomax", queryEscape (formatDegrees b.Lomax)),
          ("lomin", queryEscape (formatDegrees b.Lomin))]) ++
      (if req.Time = 0 then [] else [("time", queryEscape (itoa req.Time))]) := by
  obtain ⟨t, icao, bb⟩ := req
  rw [queryParams, reqValues_eq]
  dsimp only
  rcases eq_or_ne t 0 with rfl | ht <;>
    rcases eq_or_ne icao ([] : List String) with rfl | hi <;>
      rcases bb with _ | b <;>
        first
        | simp [encodeParams, valuesKeys, valuesGet, List.lookup, sortKeys, insortKey,
            strLt, charListLt, ht, hi]
        | simp [encodeParams, valuesKeys, valuesGet, List.lookup, sortKeys, insortKey,
            strLt, charListLt, ht]
        | simp [encodeParams, valuesKeys, valuesGet, List.lookup, sortKeys, insortKey,
            strLt, charListLt, hi]
        | simp [encodeParams, valuesKeys, valuesGet, List.lookup, sortKeys, insortKey,
            strLt, charListLt]

/-! ## Helper lemmas: decimal rendering and escaping -/

theorem digitChar_isDigit (d : Nat) : (digitChar d).isDigit = true := by
  unfold digitChar
  split <;> rfl

theorem natDigits_digits (fuel : Nat) :
    ∀ (n : Nat), ∀ c ∈ natDigits fuel n, c.isDigit = true := by
  induction fuel with
  | zero => intro n c hc; simp [natDigits] at hc
  | succ fuel ih =>
    intro n c hc
    rw [natDigits] at hc
    split at hc
    · simp at hc
    · rcases List.mem_append.mp hc with h | h
      · exact ih _ c h
      · rw [List.mem_singleton.mp h]
        exact digitChar_isDigit _

theorem natDec_digits (n : Nat) : ∀ c ∈ (natDec n).data, c.isDigit = true := by
  rw [natDec]
  split
  · intro c hc
    rw [List.mem_singleton.mp hc]
    rfl
  · intro c hc
    exact natDigits_digits _ _ c hc

theorem isSafeChar_of_isDigit {c : Char} (h : c.isDigit = true) : isSafeChar c = true := by
  simp [isSafeChar, Char.isAlphanum, h]

theorem itoa_safe (i : Int) : ∀ c ∈ (itoa i).data, isSafeChar c = true := by
  intro c hc
  rw [itoa, String.data_append] at hc
  rcases List.mem_append.mp hc with h | h
  · split at h
    · rw [List.mem_singleton.mp h]
      rfl
    · simp at h
  · exact isSafeChar_of_isDigit (natDec_digits _ c h)

theorem frac4_digits (m : Nat) : ∀ c ∈ (frac4 m).data, c.isDigit = true := by
  intro c hc
  rw [frac4] at hc
  simp only [List.mem_cons, List.not_mem_nil, or_false] at hc
  rcases hc with h | h | h | h <;> (rw [h]; exact digitChar_isDigit _)

theorem formatDegrees_safe (q : ℚ) : ∀ c ∈ (formatDegrees q).data, isSafeChar c = true := by
  intro c hc
  rw [formatDegrees] at hc
  simp only [String.data_append] at hc
  rcases List.mem_append.mp hc with h | h
  · rcases List.mem_append.mp h with h | h
    · rcases List.mem_append.mp h with h | h
      · split at h
        · rw [List.mem_singleton.mp h]
          rfl
        · simp at h
      · exact isSafeChar_of_isDigit (natDec_digits _ c h)
    · rw [List.mem_singleton.mp h]
      rfl
  · exact isSafeChar_of_isDigit (frac4_digits _ c h)

theorem escapeChar_safe {c : Char} (h : isSafeChar c = true) : escapeChar c = [c] := by
  simp [escapeChar, h]

theorem queryEscape_eq_self (s : String) (h : ∀ c ∈ s.data, isSafeChar c = true) :
    queryEscape s = s := by
  obtain ⟨l⟩ := s
  rw [queryEscape]
  congr 1
  induction l with
  | nil => rfl
  | cons c cs ih =>
    rw [List.flatMap_cons, escapeChar_safe (h c (by simp))]
    rw [ih (fun c hc => h c (by simp [hc]))]
    rfl

theorem queryEscape_itoa (i : Int) : queryEscape (itoa i) = itoa i :=
  queryEscape_eq_self _ (itoa_safe i)

theorem queryEscape_formatDegrees (q : ℚ) :
    queryEscape (formatDegrees q) = formatDegrees q :=
  queryEscape_eq_self _ (formatDegrees_safe q)

theorem filter_key_map_ne (k target : String) (h : (k == target) = false)
    (l : List String) :
    (l.map fun val => (k, queryEscape val)).filter (fun p => p.1 == target) = [] := by
  induction l with
  | nil => rfl
  | cons x xs ih => simp [List.filter_cons, h, ih]

theorem filter_key_map_self (k : String) (l : List String) :
    (l.map fun val => (k, queryEscape val)).filter (fun p => p.1 == k) =
      l.map fun val => (k, queryEscape val) := by
  induction l with
  | nil => rfl
  | cons x xs ih => simp [List.filter_cons, ih]

/-- A `%.4f` rendering always splits as an integer part (sign and decimal
digits, no dot) followed by a dot and exactly four decimal digits. -/
theorem formatDegrees_shape (q : ℚ) :
    ∃ pre post : String, formatDegrees q = pre ++ "." ++ post ∧
      post.length = 4 ∧ (∀ c ∈ post.data, c.isDigit = true) ∧ '.' ∉ pre.data := by
  refine ⟨(if q.num < 0 then "-" else "") ++
      natDec (roundHalfEvenFrac (q.num.natAbs * 10000) q.den / 10000),
    frac4 (roundHalfEvenFrac (q.num.natAbs * 10000) q.den % 10000), ?_, rfl,
    frac4_digits _, ?_⟩
  · rfl
  · intro hdot
    rw [String.data_append] at hdot
    rcases List.mem_append.mp hdot with h | h
    · split at h
      · exact absurd (List.mem_singleton.mp h) (by decide)
      · simp at h
    · exact absurd (natDec_digits _ _ h) (by decide)

/-! ## The claims -/

/-- C1: the claim says a response body whose `states` field is absent or
JSON null decodes to a `Response` with an empty state list and the body's
`time`, without failing.  The code instead asserts
`raw["states"].([]interface{})` on the nil interface value, which panics;
on both failing inputs the decoder faults (`none`) rather than producing
a response. -/
theorem claim1_null_or_absent_states_faults :
    decodeResponseBody (.obj [("time", .num 1458564121), ("states", .null)]) = none ∧
    decodeResponseBody (.obj [("time", .num 1458564121)]) = none :=
  ⟨rfl, rfl⟩

/-- C2: a JSON null at a nullable position maps to the field's zero value
(empty string for callsign and squawk, zero for the numeric fields, empty
list for sensors) rather than an error; in particular the specification's
example vector decodes to exactly the claimed `State`. -/
theorem claim2_nullable_fields_zero_values :
    deserializeString .null = some "" ∧
    deserializeFloat64 .null = some 0 ∧
    deserializeIntSlice .null = some [] ∧
    deserializeState (.arr sampleVec) = some sampleState :=
  ⟨rfl, rfl, rfl, rfl⟩

/-- C3: a JSON null at any of the positions read through a bare type
assertion (0 icao24, 2 originCountry, 4 lastContact, 8 onGround, 15 spi,
16 positionSource) makes the decode fault rather than produce a `State`
with a substituted default. -/
theorem claim3_non_nullable_null_faults (vec : List JsonValue) (i : Nat)
    (_hlen : vec.length = 17) (hi : i ∈ ([0, 2, 4, 8, 15, 16] : List Nat))
    (hnull : vec[i]? = some .null) :
    deserializeState (.arr vec) = none := by
  cases hd : deserializeState (.arr vec) with
  | none => rfl
  | some s =>
    obtain ⟨-, h0, h2, h4, h8, h15, h16⟩ := deserializeState_some_inv hd
    fin_cases hi
    · exact absurd hnull h0
    · exact absurd hnull h2
    · exact absurd hnull h4
    · exact absurd hnull h8
    · exact absurd hnull h15
    · exact absurd hnull h16

/-- Witness for C3 at a concrete input: the example vector with position 4
(lastContact) nulled out faults. -/
theorem claim3_non_nullable_null_faults_witness :
    deserializeState (.arr (sampleVec.set 4 .null)) = none :=
  claim3_non_nullable_null_faults (sampleVec.set 4 .null) 4 rfl (by decide) rfl

/-- C5: a state vector with fewer than 17 elements is a decode error
(the out-of-range access at the first missing index panics); it is never
silently truncated into a successful `State`.  The decoder reads positions
0 through 16 in index order by definition of `deserializeState`. -/
theorem claim5_short_vector_is_error (vec : List JsonValue)
    (h : vec.length < 17) :
    deserializeState (.arr vec) = none := by
  cases hd : deserializeState (.arr vec) with
  | none => rfl
  | some s => exact absurd (deserializeState_some_inv hd).1 (by omega)

/-- Witness for C5 at a concrete input: the first 16 elements of the
example vector (each individually well-typed) do not decode. -/
theorem claim5_short_vector_is_error_witness :
    (sampleVec.take 16).length < 17 ∧
    deserializeState (.arr (sampleVec.take 16)) = none :=
  ⟨by decide, claim5_short_vector_is_error (sampleVec.take 16) (by decide)⟩

/-- C10: a raw state vector longer than 17 elements whose first 17
positions decode successfully yields the same `State` as its first 17
positions alone: the trailing elements are ignored, not an error. -/
theorem claim10_extra_elements_ignored (xs rest : List JsonValue) (s : State)
    (hlen : xs.length = 17) (h : deserializeState (.arr xs) = some s) :
    deserializeState (.arr (xs ++ rest)) = some s := by
  have e : ∀ i : Nat, i < 17 → (xs ++ rest)[i]? = xs[i]? := fun i hi =>
    List.getElem?_append_left (by omega)
  rw [deserializeState] at h ⊢
  simp only [asArr, obind_some] at h ⊢
  rw [e 0 (by omega), e 1 (by omega), e 2 (by omega), e 3 (by omega),
    e 4 (by omega), e 5 (by omega), e 6 (by omega), e 7 (by omega),
    e 8 (by omega), e 9 (by omega), e 10 (by omega), e 11 (by omega),
    e 12 (by omega), e 13 (by omega), e 14 (by omega), e 15 (by omega),
    e 16 (by omega)]
  exact h

/-- Witness for C10 at a concrete input: the example vector with two extra
trailing elements decodes to the same `State`. -/
theorem claim10_extra_elements_ignored_witness :
    deserializeState (.arr (sampleVec ++ [.str "extra", .null])) = some sampleState :=
  claim10_extra_elements_ignored sampleVec [.str "extra", .null] sampleState rfl rfl

/-- C4: the claim says a non-null JSON array of numbers at index 12
decodes into the `Sensors` field as a list of integers, and a JSON null
yields an empty list.  The null half holds, but the non-null half fails on
the code: `deserializeIntSlice` asserts `slice.([]int)` while a JSON array
decodes to `[]interface{}`, so the assertion panics on every non-null
sensors value — shown both on the bare slice and on a full, otherwise
well-typed vector. -/
theorem claim4_sensors_null_ok_array_faults :
    deserializeIntSlice .null = some [] ∧
    deserializeIntSlice (.arr [.num 1, .num 2]) = none ∧
    deserializeState (.arr (sampleVec.set 12 (.arr [.num 1, .num 2]))) = none :=
  ⟨rfl, rfl, rfl⟩

/-- C6: a request with `Time = 0`, no transponder addresses and no
bounding box (in the model, the unique such `Request`) encodes to the
empty query string, and a nil request leaves the URL's query empty. -/
theorem claim6_default_request_empty_query :
    serializeQueryParams ⟨0, [], none⟩ = "" ∧
    getRawQuery (some ⟨0, [], none⟩) = "" ∧
    getRawQuery none = "" :=
  ⟨rfl, rfl, rfl⟩

/-- C9: encoding the request with `Icao24=["abc9f3","3c6444"]`,
`Bbox={1,2,3,4}` and `Time=1458564121` and parsing the resulting query
string back recovers both `icao24` values in order (one repeated
parameter per address), all four bounds (as their 4-digit renderings) and
the time value. -/
theorem claim9_query_roundtrip :
    parseQuery (serializeQueryParams rtReq) =
      [("icao24", "abc9f3"), ("icao24", "3c6444"), ("lamax", "3.0000"),
       ("lamin", "1.0000"), ("lomax", "4.0000"), ("lomin", "2.0000"),
       ("time", "1458564121")] ∧
    ((parseQuery (serializeQueryParams rtReq)).filter
      (fun p => p.1 == "icao24")).map Prod.snd = rtReq.Icao24 ∧
    ((parseQuery (serializeQueryParams rtReq)).filter
      (fun p => p.1 == "time")).map Prod.snd = [itoa rtReq.Time] ∧
    ((parseQuery (serializeQueryParams rtReq)).filter
      (fun p => p.1 == "lamin")).map Prod.snd = [formatDegrees 1] ∧
    ((parseQuery (serializeQueryParams rtReq)).filter
      (fun p => p.1 == "lomin")).map Prod.snd = [formatDegrees 2] ∧
    ((parseQuery (serializeQueryParams rtReq)).filter
      (fun p => p.1 == "lamax")).map Prod.snd = [formatDegrees 3] ∧
    ((parseQuery (serializeQueryParams rtReq)).filter
      (fun p => p.1 == "lomax")).map Prod.snd = [formatDegrees 4] :=
  ⟨rfl, rfl, rfl, rfl, rfl, rfl, rfl⟩

/-- C7: for nonzero `Time` (negative included) the encoded query contains
the parameter `time=<Time>` exactly once — stated on the `key=value` pair
list the query string joins with `&`: filtering it for the key `time`
yields exactly the one pair with the decimal rendering of `Time` — and
for `Time = 0` no `time` parameter is emitted. -/
theorem claim7_time_param (req : Request) :
    (req.Time ≠ 0 →
      (queryParams req).filter (fun p => p.1 == "time") = [("time", itoa req.Time)]) ∧
    (req.Time = 0 →
      (queryParams req).filter (fun p => p.1 == "time") = []) ∧
    serializeQueryParams req =
      joinParts "&" ((queryParams req).map fun p => p.1 ++ "=" ++ p.2) := by
  obtain ⟨t, icao, bb⟩ := req
  refine ⟨fun ht0 => ?_, fun ht0 => ?_, rfl⟩ <;>
    [have ht : t ≠ 0 := ht0; have ht : t = 0 := ht0] <;>
    rw [queryParams_eq] <;> dsimp only <;>
      rcases bb with _ | b <;>
        simp [List.filter_append, filter_key_map_ne, ht, queryEscape_itoa]

/-- Witness for C7 at concrete requests: the round-trip request carries
`time=1458564121` once, and a request with `Time = 0` carries none. -/
theorem claim7_time_param_witness :
    (queryParams rtReq).filter (fun p => p.1 == "time") = [("time", itoa rtReq.Time)] ∧
    (queryParams ⟨0, ["abc9f3"], none⟩).filter (fun p => p.1 == "time") = [] :=
  ⟨(claim7_time_param rtReq).1 (by decide),
   (claim7_time_param ⟨0, ["abc9f3"], none⟩).2.1 rfl⟩

/-- C8: when a bounding box is present, each of the four bounds appears in
the encoded parameter list under its key, rendered by `formatDegrees`, and
every `formatDegrees` rendering has exactly 4 digits after the decimal
point, regardless of the value's magnitude or sign. -/
theorem claim8_bbox_four_decimals (req : Request) (b : Bbox)
    (hbb : req.Bbox = some b) :
    (queryParams req).filter (fun p => p.1 == "lamin") = [("lamin", formatDegrees b.Lamin)] ∧
    (queryParams req).filter (fun p => p.1 == "lomin") = [("lomin", formatDegrees b.Lomin)] ∧
    (queryParams req).filter (fun p => p.1 == "lamax") = [("lamax", formatDegrees b.Lamax)] ∧
    (queryParams req).filter (fun p => p.1 == "lomax") = [("lomax", formatDegrees b.Lomax)] ∧
    (∀ q : ℚ, ∃ pre post : String, formatDegrees q = pre ++ "." ++ post ∧
      post.length = 4 ∧ (∀ c ∈ post.data, c.isDigit = true) ∧ '.' ∉ pre.data) := by
  obtain ⟨t, icao, bb⟩ := req
  dsimp only at hbb
  subst hbb
  refine ⟨?_, ?_, ?_, ?_, formatDegrees_shape⟩ <;>
    rw [queryParams_eq] <;> dsimp only <;>
      rcases eq_or_ne t 0 with rfl | ht <;>
        first
        | simp [List.filter_append, filter_key_map_ne, ht, queryEscape_formatDegrees]
        | simp [List.filter_append, filter_key_map_ne, queryEscape_formatDegrees]

/-- Witness for C8 at the concrete round-trip request and its bounding
box `{1, 2, 3, 4}`. -/
theorem claim8_bbox_four_decimals_witness :
    (queryParams rtReq).filter (fun p => p.1 == "lamin") = [("lamin", formatDegrees 1)] ∧
    (queryParams rtReq).filter (fun p => p.1 == "lomin") = [("lomin", formatDegrees 2)] ∧
    (queryParams rtReq).filter (fun p => p.1 == "lamax") = [("lamax", formatDegrees 3)] ∧
    (queryParams rtReq).filter (fun p => p.1 == "lomax") = [("lomax", formatDegrees 4)] ∧
    (∀ q : ℚ, ∃ pre post : String, formatDegrees q = pre ++ "." ++ post ∧
      post.length = 4 ∧ (∀ c ∈ post.data, c.isDigit = true) ∧ '.' ∉ pre.data) :=
  claim8_bbox_four_decimals rtReq ⟨1, 2, 3, 4⟩ rfl

end Gopensky
